import Mathlib

/-
  Shallow embedding of the event-hub repository core (Channel, EventHub,
  Pipeline) and proofs of the spec claims about it.

  Conventions of the embedding:
  - A JavaScript value that may be undefined is an Option; none stands for
    undefined (and for null where the source treats the two alike).
  - A function that may throw returns Except; the error payload models the
    thrown Error (a String in concrete instances).
  - Asynchronous code in the source awaits every call in program order, so
    the embedding is the corresponding sequential function.
-/

namespace EventHubSpec

/-- Result of one pipeline stage, from the PipelineResult type of
pipeline.ts: success flag, optional data, optional error.  The data field
is none when the source value is null or undefined. -/
structure PipelineResult (V E : Type) where
  success : Bool
  data : Option V := none
  error : Option E := none
deriving Repr, DecidableEq

/-- A pipeline filter, the process member of IPipelineFilter: it receives
the current value and either returns a PipelineResult or throws (the
Except.error case, caught by the try block of Pipeline.process). -/
def FilterFun (V E : Type) : Type := V → Except E (PipelineResult V E)

/-- The loop body of Pipeline.process from pipeline.ts, over the list of
filters still to run.  Besides the result it returns the number of
filters that were invoked, which makes "later stages never execute"
statements expressible.  Mirrors, in order: the failure short-circuit,
the null/undefined early exit, the threading of data into the next
stage, and the final success return. -/
def processGo {V E : Type} : List (FilterFun V E) → V → PipelineResult V E × Nat
  | [], x => (⟨true, some x, none⟩, 0)
  | f :: rest, x =>
    match f x with
    | Except.error e => (⟨false, none, some e⟩, 1)
    | Except.ok fr =>
      if fr.success = false then
        (⟨false, none, fr.error⟩, 1)
      else
        match fr.data with
        | none => (⟨true, none, none⟩, 1)
        | some d => ((processGo rest d).1, (processGo rest d).2 + 1)

/-- The Pipeline class: its private filters array. -/
structure Pipeline (V E : Type) where
  filters : List (FilterFun V E) := []

/-- Pipeline.process of pipeline.ts: run the input through every filter in
order. -/
def Pipeline.process {V E : Type} (p : Pipeline V E) (x : V) : PipelineResult V E :=
  (processGo p.filters x).1

/-- Instrumentation: how many stages Pipeline.process invoked on x. -/
def Pipeline.stagesRun {V E : Type} (p : Pipeline V E) (x : V) : Nat :=
  (processGo p.filters x).2

/-- The pipeline produced by the constructor: an empty filters array. -/
def Pipeline.empty (V E : Type) : Pipeline V E := ⟨[]⟩

/-- The first fs stages all succeed on x with present data, ending at the
value v: running exactly those stages consumes all of them and yields
success with data v. -/
def runsTo {V E : Type} (fs : List (FilterFun V E)) (x v : V) : Prop :=
  processGo fs x = (⟨true, some v, none⟩, fs.length)

/-- Splitting the stage list: when the leading stages all succeed ending
at v, processing the whole list continues with the remaining stages on v,
and the invocation count adds up. -/
theorem processGo_append {V E : Type} (fs : List (FilterFun V E)) (gs : List (FilterFun V E))
    (x v : V) (h : runsTo fs x v) :
    processGo (fs ++ gs) x = ((processGo gs v).1, (processGo gs v).2 + fs.length) := by
  induction fs generalizing x with
  | nil =>
    unfold runsTo processGo at h
    have hx : x = v := by
      have := congrArg (fun q => (Prod.fst q).data) h
      simpa using this
    subst hx
    simp
  | cons f fs ih =>
    unfold runsTo at h
    cases hfx : f x with
    | error e =>
      exfalso
      simp only [processGo, hfx] at h
      have := congrArg (fun q => (Prod.fst q).success) h
      simp at this
    | ok fr =>
      simp only [processGo, hfx] at h
      by_cases hs : fr.success = false
      · exfalso
        simp only [hs, if_true] at h
        have := congrArg (fun q => (Prod.fst q).success) h
        simp at this
      · simp only [hs, if_false] at h
        cases hd : fr.data with
        | none =>
          exfalso
          simp only [hd] at h
          have := congrArg (fun q => (Prod.fst q).data) h
          simp at this
        | some d =>
          simp only [hd] at h
          have h1 : processGo fs d = (⟨true, some v, none⟩, fs.length) := by
            have hfst : (processGo fs d).1 = (⟨true, some v, none⟩ : PipelineResult V E) := by
              have := congrArg Prod.fst h
              simpa using this
            have hsnd : (processGo fs d).2 = fs.length := by
              have := congrArg Prod.snd h
              simp at this
              omega
            calc processGo fs d = ((processGo fs d).1, (processGo fs d).2) := rfl
              _ = (⟨true, some v, none⟩, fs.length) := by rw [hfst, hsnd]
          have ih2 := ih d h1
          have hs2 : fr.success = true := by
            cases hsv : fr.success with
            | false => exact absurd hsv hs
            | true => rfl
          have hstep : processGo ((f :: fs) ++ gs) x =
              ((processGo (fs ++ gs) d).1, (processGo (fs ++ gs) d).2 + 1) := by
            simp [processGo, hfx, hs2, hd]
          rw [hstep, ih2]
          refine Prod.ext rfl ?_
          rw [List.length_cons]
          exact Nat.add_assoc _ _ _

/-- C8: a pipeline with zero stages returns success with the input itself
as data, for every input: the empty pipeline is the identity
transformation. -/
theorem empty_pipeline_identity {V E : Type} (x : V) :
    (Pipeline.empty V E).process x = ⟨true, some x, none⟩ := rfl

/-- C6: when the stages before stage k succeed ending at value v and stage
k either returns a failure result or throws, Pipeline.process returns a
failure carrying that error of stage k, and exactly k stages were
invoked: the stages after k never execute (the conclusion holds for
every choice of the remaining stage list rest). -/
theorem pipeline_short_circuit {V E : Type} (fs rest : List (FilterFun V E))
    (f : FilterFun V E) (x v : V) (h : runsTo fs x v) :
    (∀ fr : PipelineResult V E, f v = Except.ok fr → fr.success = false →
      Pipeline.process ⟨fs ++ f :: rest⟩ x = ⟨false, none, fr.error⟩ ∧
      Pipeline.stagesRun ⟨fs ++ f :: rest⟩ x = fs.length + 1) ∧
    (∀ e : E, f v = Except.error e →
      Pipeline.process ⟨fs ++ f :: rest⟩ x = ⟨false, none, some e⟩ ∧
      Pipeline.stagesRun ⟨fs ++ f :: rest⟩ x = fs.length + 1) := by
  have hx := processGo_append fs (f :: rest) x v h
  constructor
  · intro fr hok hfail
    have hone : processGo (f :: rest) v = (⟨false, none, fr.error⟩, 1) := by
      simp [processGo, hok, hfail]
    constructor
    · simp [Pipeline.process, hx, hone]
    · simp [Pipeline.stagesRun, hx, hone, Nat.add_comm]
  · intro e herr
    have hone : processGo (f :: rest) v = (⟨false, none, some e⟩, 1) := by
      simp [processGo, herr]
    constructor
    · simp [Pipeline.process, hx, hone]
    · simp [Pipeline.stagesRun, hx, hone, Nat.add_comm]

/-- C7: when the stages before stage k succeed ending at value v and stage
k returns success with absent data, Pipeline.process returns success with
absent data, and exactly k stages were invoked: stage k+1 and all later
stages never execute (the conclusion holds for every choice of the
remaining stage list rest). -/
theorem pipeline_absent_data_exit {V E : Type} (fs rest : List (FilterFun V E))
    (f : FilterFun V E) (x v : V) (fr : PipelineResult V E) (h : runsTo fs x v)
    (hok : f v = Except.ok fr) (hsucc : fr.success = true) (hdata : fr.data = none) :
    Pipeline.process ⟨fs ++ f :: rest⟩ x = ⟨true, none, none⟩ ∧
    Pipeline.stagesRun ⟨fs ++ f :: rest⟩ x = fs.length + 1 := by
  have hx := processGo_append fs (f :: rest) x v h
  have hone : processGo (f :: rest) v = (⟨true, none, none⟩, 1) := by
    simp [processGo, hok, hsucc, hdata]
  constructor
  · simp [Pipeline.process, hx, hone]
  · simp [Pipeline.stagesRun, hx, hone, Nat.add_comm]

/-- Concrete stage: adds one to the value, always succeeds. -/
def incFilter : FilterFun Nat String := fun n => Except.ok ⟨true, some (n + 1), none⟩

/-- Concrete stage: returns a structured failure. -/
def failFilter : FilterFun Nat String := fun _ => Except.ok ⟨false, none, some "boom"⟩

/-- Concrete stage: throws instead of returning a result. -/
def throwFilter : FilterFun Nat String := fun _ => Except.error "thrown"

/-- Concrete stage: succeeds with absent data, deliberately swallowing
the datum. -/
def dropFilter : FilterFun Nat String := fun _ => Except.ok ⟨true, none, none⟩

/-- Witness for C6: in a three-stage pipeline whose second stage fails (or
throws), process returns that failure and only two stages ran. -/
theorem pipeline_short_circuit_witness :
    Pipeline.process (⟨[incFilter, failFilter, incFilter]⟩ : Pipeline Nat String) 0 =
        ⟨false, none, some "boom"⟩ ∧
    Pipeline.stagesRun (⟨[incFilter, failFilter, incFilter]⟩ : Pipeline Nat String) 0 = 2 ∧
    Pipeline.process (⟨[incFilter, throwFilter, incFilter]⟩ : Pipeline Nat String) 0 =
        ⟨false, none, some "thrown"⟩ := by
  refine ⟨?_, ?_, ?_⟩
  · exact ((pipeline_short_circuit [incFilter] [incFilter] failFilter 0 1 rfl).1
      ⟨false, none, some "boom"⟩ rfl rfl).1
  · have h2 := ((pipeline_short_circuit [incFilter] [incFilter] failFilter 0 1 rfl).1
      ⟨false, none, some "boom"⟩ rfl rfl).2
    simpa using h2
  · exact ((pipeline_short_circuit [incFilter] [incFilter] throwFilter 0 1 rfl).2 "thrown" rfl).1

/-- Witness for C7: in a three-stage pipeline whose second stage succeeds
with absent data, process returns success with absent data and only two
stages ran. -/
theorem pipeline_absent_data_exit_witness :
    Pipeline.process (⟨[incFilter, dropFilter, incFilter]⟩ : Pipeline Nat String) 5 =
        ⟨true, none, none⟩ ∧
    Pipeline.stagesRun (⟨[incFilter, dropFilter, incFilter]⟩ : Pipeline Nat String) 5 = 2 := by
  have h := pipeline_absent_data_exit [incFilter] [incFilter] dropFilter 5 6
    ⟨true, none, none⟩ rfl rfl rfl rfl
  exact ⟨h.1, by simpa using h.2⟩

/-- The runtime filter argument handed to Pipeline.add: the argument may
be null or undefined (the outer none), and when present its process
member may fail the typeof function test (the inner none). -/
structure FilterArg (V E : Type) where
  processMember : Option (FilterFun V E)

/-- A heap of Pipeline objects; an object reference is an index into the
heap.  Making object identity explicit lets the non-mutating behaviour of
add be stated and checked rather than hold vacuously. -/
abbrev PipelineStore (V E : Type) : Type := List (Pipeline V E)

/-- The private filters array of the pipeline object p in the store. -/
def storeFilters {V E : Type} (σ : PipelineStore V E) (p : Nat) : List (FilterFun V E) :=
  (σ.getD p ⟨[]⟩).filters

/-- The size getter of the Pipeline class on object p: the length of its
filters array. -/
def storeSize {V E : Type} (σ : PipelineStore V E) (p : Nat) : Nat :=
  (storeFilters σ p).length

/-- Pipeline.add of the packages revision of pipeline.ts: reject a null or
undefined filter, reject a filter without a callable process member, then
allocate a new Pipeline object whose filters array is a copy of the
filters of this with the new filter appended, and return the new object.
The Except error cases model the two throw statements. -/
def storeAdd {V E : Type} (σ : PipelineStore V E) (p : Nat) (arg : Option (FilterArg V E)) :
    Except String (PipelineStore V E × Nat) :=
  match arg with
  | none => Except.error "Filter cannot be null or undefined"
  | some fo =>
    match fo.processMember with
    | none => Except.error "Filter must implement process method"
    | some f => Except.ok (σ ++ [⟨storeFilters σ p ++ [f]⟩], σ.length)

/-- Decidable success test for the modelled throwing calls. -/
def exceptOk {E A : Type} : Except E A → Bool
  | Except.ok _ => true
  | Except.error _ => false

/-- C1: adding a valid filter f to pipeline p yields a distinct pipeline
object whose stage list is the prior stages of p followed by f, while the
stage list and observable size of p itself are unchanged: add does not
mutate the original pipeline. -/
theorem add_appends_without_mutating {V E : Type} (σ : PipelineStore V E) (p : Nat)
    (f : FilterFun V E) (hp : p < σ.length) :
    ∃ σ2 q, storeAdd σ p (some ⟨some f⟩) = Except.ok (σ2, q) ∧
      storeFilters σ2 q = storeFilters σ p ++ [f] ∧
      storeFilters σ2 p = storeFilters σ p ∧
      storeSize σ2 p = storeSize σ p ∧
      q ≠ p := by
  refine ⟨σ ++ [Pipeline.mk (storeFilters σ p ++ [f])], σ.length, rfl, ?_, ?_, ?_, ?_⟩
  · unfold storeFilters
    rw [List.getD_append_right _ _ _ _ (Nat.le_refl _)]
    simp
  · unfold storeFilters
    rw [List.getD_append _ _ _ _ hp]
  · unfold storeSize storeFilters
    rw [List.getD_append _ _ _ _ hp]
  · exact fun hq => absurd hq.symm (Nat.ne_of_lt hp)

/-- Witness for C1 at a concrete store: one pipeline holding incFilter,
extended with failFilter. -/
theorem add_appends_without_mutating_witness :
    (0 : Nat) < ([⟨[incFilter]⟩] : PipelineStore Nat String).length ∧
    ∃ σ2 q, storeAdd ([⟨[incFilter]⟩] : PipelineStore Nat String) 0 (some ⟨some failFilter⟩) =
        Except.ok (σ2, q) ∧
      storeFilters σ2 q = storeFilters ([⟨[incFilter]⟩] : PipelineStore Nat String) 0 ++ [failFilter] ∧
      storeFilters σ2 0 = storeFilters ([⟨[incFilter]⟩] : PipelineStore Nat String) 0 ∧
      storeSize σ2 0 = storeSize ([⟨[incFilter]⟩] : PipelineStore Nat String) 0 ∧
      q ≠ 0 :=
  ⟨Nat.zero_lt_one, add_appends_without_mutating [⟨[incFilter]⟩] 0 failFilter Nat.zero_lt_one⟩

/-- C2: Pipeline.add throws synchronously (the Except error of the model,
not a PipelineResult) exactly when the filter argument is absent or its
process member is not callable; with a present filter exposing a callable
process, add does not throw. -/
theorem add_validates_filter {V E : Type} (σ : PipelineStore V E) (p : Nat) :
    storeAdd σ p none = Except.error "Filter cannot be null or undefined" ∧
    (∀ fo : FilterArg V E, fo.processMember = none →
      storeAdd σ p (some fo) = Except.error "Filter must implement process method") ∧
    (∀ f : FilterFun V E, exceptOk (storeAdd σ p (some ⟨some f⟩)) = true) := by
  refine ⟨rfl, ?_, ?_⟩
  · intro fo hfo
    cases fo
    simp at hfo
    subst hfo
    rfl
  · intro f
    rfl

/-- Witness for C2: on a concrete store, add rejects a missing filter and
a filter without process, and accepts a well-formed filter. -/
theorem add_validates_filter_witness :
    storeAdd ([⟨[incFilter]⟩] : PipelineStore Nat String) 0 none =
        Except.error "Filter cannot be null or undefined" ∧
    storeAdd ([⟨[incFilter]⟩] : PipelineStore Nat String) 0 (some ⟨none⟩) =
        Except.error "Filter must implement process method" ∧
    exceptOk (storeAdd ([⟨[incFilter]⟩] : PipelineStore Nat String) 0 (some ⟨some incFilter⟩)) = true := by
  have h := add_validates_filter ([⟨[incFilter]⟩] : PipelineStore Nat String) 0
  exact ⟨h.1, h.2.1 ⟨none⟩ rfl, h.2.2 incFilter⟩

/-- Channel metrics from types.ts: publish count, callback error count,
time of last publish. -/
structure ChannelMetrics where
  publishCount : Nat
  errorCount : Nat
  lastPublishTime : Nat
deriving Repr, DecidableEq

/-- A raw subscriber callback.  Its argument is the published JavaScript
value (none = undefined).  The Bool records whether the callback throws
on that value; the wrapped callback installed by subscribe catches the
throw, so no further effect of the raw callback is observable. -/
def RawCallback (V : Type) : Type := Option V → Bool

/-- Subscribe options from types.ts: replay flag and optional group. -/
structure SubscribeOptions where
  replay : Bool := false
  group : Option String := none

/-- The Channel class of channel.ts: name, last event slot (none while
unset or set to undefined), id counter, insertion-ordered callback map,
group map, metrics. -/
structure Channel (V : Type) where
  name : String
  lastEvent : Option V := none
  lastId : Nat := 0
  callbacks : List (Nat × RawCallback V) := []
  groups : List (String × List Nat) := []
  metrics : ChannelMetrics := ⟨0, 0, 0⟩

/-- A freshly constructed Channel. -/
def Channel.new (V : Type) (name : String) : Channel V := { name := name }

/-- The forEach loop of Channel.publish: invoke the wrapped callback of
every subscriber in insertion order with the published value.  Returns
the number of raw callbacks that threw (each caught by its wrapper,
incrementing errorCount once) and the list of invocations (id, value). -/
def runCallbacks {V : Type} : List (Nat × RawCallback V) → Option V → Nat × List (Nat × Option V)
  | [], _ => (0, [])
  | (id, cb) :: rest, d =>
    ((if cb d then 1 else 0) + (runCallbacks rest d).1, (id, d) :: (runCallbacks rest d).2)

/-- Channel.publish of channel.ts: bump publishCount, record the publish
time, store the value as lastEvent, then invoke every wrapped callback in
insertion order.  Also returns the invocation log.  The function always
returns: a throwing callback is caught by its wrapper and only counted,
so no failure reaches the publisher. -/
def Channel.publish {V : Type} (ch : Channel V) (d : Option V) (now : Nat) :
    Channel V × List (Nat × Option V) :=
  ({ ch with
      lastEvent := d,
      metrics :=
        { publishCount := ch.metrics.publishCount + 1,
          errorCount := ch.metrics.errorCount + (runCallbacks ch.callbacks d).1,
          lastPublishTime := now } },
   (runCallbacks ch.callbacks d).2)

/-- The addToGroup helper of channel.ts. -/
def addToGroup (gs : List (String × List Nat)) (g : String) (id : Nat) :
    List (String × List Nat) :=
  match gs with
  | [] => [(g, [id])]
  | (g0, ids) :: rest =>
    if g0 = g then (g0, ids ++ [id]) :: rest else (g0, ids) :: addToGroup rest g id

/-- Channel.subscribe of channel.ts: take the next id, capture lastEvent,
install the wrapped callback, register the group when given, and if the
replay option is set and the captured lastEvent is not undefined, invoke
the wrapped callback with it once before returning.  Returns the updated
channel, the new subscription id, and the log of replay invocations
(id, value); a replayed callback that throws is caught and counted like
any other wrapped invocation. -/
def Channel.subscribe {V : Type} (ch : Channel V) (cb : RawCallback V)
    (opts : SubscribeOptions) : Channel V × Nat × List (Nat × Option V) :=
  let id := ch.lastId + 1
  let lastEvt := ch.lastEvent
  let ch1 : Channel V := { ch with lastId := id, callbacks := ch.callbacks ++ [(id, cb)] }
  let ch2 : Channel V :=
    match opts.group with
    | some g => { ch1 with groups := addToGroup ch1.groups g id }
    | none => ch1
  if opts.replay && lastEvt.isSome then
    ({ ch2 with
        metrics :=
          { ch2.metrics with
            errorCount := ch2.metrics.errorCount + (if cb lastEvt then 1 else 0) } },
     id, [(id, lastEvt)])
  else
    (ch2, id, [])

/-- The invocation log of a publish is every subscriber in order, each
receiving the published value. -/
theorem runCallbacks_log {V : Type} (cbs : List (Nat × RawCallback V)) (d : Option V) :
    (runCallbacks cbs d).2 = cbs.map (fun p => (p.1, d)) := by
  induction cbs with
  | nil => rfl
  | cons hd tl ih =>
    cases hd
    simp [runCallbacks, ih]

/-- C3: on a channel with the two subscribers s1 then s2, publishing d
when the callback of s1 throws on d and the callback of s2 does not:
both callbacks are invoked with d in order (the failure of s1 does not
stop delivery to s2), errorCount grows by exactly one, and publish
returns normally to the publisher (it is a total function of the model,
so the failure never propagates). -/
theorem publish_isolates_callback_errors {V : Type} (ch : Channel V) (i1 i2 : Nat)
    (c1 c2 : RawCallback V) (d : Option V) (now : Nat)
    (hcb : ch.callbacks = [(i1, c1), (i2, c2)])
    (h1 : c1 d = true) (h2 : c2 d = false) :
    (ch.publish d now).2 = [(i1, d), (i2, d)] ∧
    (ch.publish d now).1.metrics.errorCount = ch.metrics.errorCount + 1 := by
  constructor
  · simp [Channel.publish, hcb, runCallbacks_log]
  · simp [Channel.publish, hcb, runCallbacks, h1, h2]

/-- A concrete callback that throws on every value. -/
def alwaysThrows : RawCallback Nat := fun _ => true

/-- A concrete callback that never throws. -/
def neverThrows : RawCallback Nat := fun _ => false

/-- A concrete channel with the throwing callback registered before the
well-behaved one. -/
def twoSubChannel : Channel Nat :=
  { name := "c", lastId := 2, callbacks := [(1, alwaysThrows), (2, neverThrows)] }

/-- Witness for C3 on the concrete two-subscriber channel. -/
theorem publish_isolates_callback_errors_witness :
    (twoSubChannel.publish (some 7) 0).2 = [(1, some 7), (2, some 7)] ∧
    (twoSubChannel.publish (some 7) 0).1.metrics.errorCount =
      twoSubChannel.metrics.errorCount + 1 :=
  publish_isolates_callback_errors twoSubChannel 1 2 alwaysThrows neverThrows
    (some 7) 0 rfl rfl rfl

/-- Counterexample to C5 as stated: publish undefined on a fresh channel,
so a publish has occurred (publishCount is 1), then subscribe with
replay true: the callback is not invoked at all (the replay guard
checks lastEvent against undefined), not exactly once as claimed. -/
theorem replay_after_publish_cex :
    (((Channel.new Nat "c").publish none 0).1.metrics.publishCount = 1) ∧
    ((((Channel.new Nat "c").publish none 0).1.subscribe neverThrows
        { replay := true }).2.2 = []) := by
  constructor <;> rfl

/-- C5 amended: subscribing with replay true invokes the new callback
exactly once, synchronously within subscribe, with the cached last value
v, provided that value is defined; with replay false, or when the cached
last value is undefined (channel never published to, or the last publish
carried undefined), subscribe invokes nothing. -/
theorem subscribe_replay_behavior {V : Type} (ch : Channel V) (cb : RawCallback V)
    (opts : SubscribeOptions) :
    (opts.replay = true → ∀ v : V, ch.lastEvent = some v →
      (ch.subscribe cb opts).2.2 = [(ch.lastId + 1, some v)]) ∧
    (opts.replay = false → (ch.subscribe cb opts).2.2 = []) ∧
    (ch.lastEvent = none → (ch.subscribe cb opts).2.2 = []) := by
  refine ⟨?_, ?_, ?_⟩
  · intro hr v hv
    simp [Channel.subscribe, hr, hv]
  · intro hr
    simp [Channel.subscribe, hr]
  · intro hv
    simp [Channel.subscribe, hv]

/-- Witness for the amended C5: after publishing 5, a replay subscription
is invoked once with 5; without replay, or on a fresh channel with
replay, nothing is invoked. -/
theorem subscribe_replay_behavior_witness :
    ((((Channel.new Nat "c").publish (some 5) 0).1.subscribe neverThrows
        { replay := true }).2.2 = [(1, some 5)]) ∧
    ((((Channel.new Nat "c").publish (some 5) 0).1.subscribe neverThrows
        { replay := false }).2.2 = []) ∧
    (((Channel.new Nat "c").subscribe neverThrows { replay := true }).2.2 = []) := by
  refine ⟨?_, ?_, ?_⟩
  · exact (subscribe_replay_behavior ((Channel.new Nat "c").publish (some 5) 0).1
      neverThrows { replay := true }).1 rfl 5 rfl
  · exact (subscribe_replay_behavior ((Channel.new Nat "c").publish (some 5) 0).1
      neverThrows { replay := false }).2.1 rfl
  · exact (subscribe_replay_behavior (Channel.new Nat "c")
      neverThrows { replay := true }).2.2 rfl

/-- C10: after publishing undefined on any channel, the public lastEvent
getter returns undefined, the same observation as on a freshly
constructed channel, and a subsequent subscribe with replay true performs
no invocation at all. -/
theorem publish_undefined_clears_replay {V : Type} (ch : Channel V) (cb : RawCallback V)
    (now : Nat) :
    ((ch.publish none now).1.lastEvent = none) ∧
    ((ch.publish none now).1.lastEvent = (Channel.new V ch.name).lastEvent) ∧
    (((ch.publish none now).1.subscribe cb { replay := true }).2.2 = []) := by
  refine ⟨rfl, rfl, ?_⟩
  simp [Channel.subscribe, Channel.publish]

/-- The reserved wildcard channel name from types.ts. -/
def WildCardChannel : String := "*"

/-- The EventHub class of event-hub.ts: its private channels map,
insertion-ordered as a JavaScript Map is. -/
structure EventHub (V : Type) where
  channels : List (String × Channel V)

/-- Lookup in the channels map. -/
def lookupChan {V : Type} : List (String × Channel V) → String → Option (Channel V)
  | [], _ => none
  | (m, ch) :: rest, n => if m = n then some ch else lookupChan rest n

/-- Replace the entry of key n in the channels map (keys are unique in a
Map, so replacing every matching entry is the same operation). -/
def setChan {V : Type} (cs : List (String × Channel V)) (n : String) (ch : Channel V) :
    List (String × Channel V) :=
  cs.map (fun p => if p.1 = n then (p.1, ch) else p)

/-- The EventHub constructor: creates the wildcard channel eagerly. -/
def EventHub.new (V : Type) : EventHub V :=
  ⟨[(WildCardChannel, Channel.new V WildCardChannel)]⟩

/-- The map part of getOrCreateChannel: create the channel on first
reference, then return it. -/
def EventHub.getOrCreate {V : Type} (hub : EventHub V) (n : String) :
    EventHub V × Channel V :=
  match lookupChan hub.channels n with
  | some ch => (hub, ch)
  | none => (⟨hub.channels ++ [(n, Channel.new V n)]⟩, Channel.new V n)

/-- EventHub.getOrCreateChannel of event-hub.ts: reject an empty channel
name with a TypeError (the Except error; a falsy string is exactly the
empty string), otherwise create the channel lazily and return it. -/
def EventHub.getOrCreateChannel {V : Type} (hub : EventHub V) (n : String) :
    Except String (EventHub V × Channel V) :=
  if n = "" then Except.error "Channel name must be a non-empty string"
  else Except.ok (hub.getOrCreate n)

/-- The channelCount getter. -/
def EventHub.channelCount {V : Type} (hub : EventHub V) : Nat :=
  hub.channels.length

/-- EventHub.publish of event-hub.ts: resolve or create the target
channel, publish to it, and then, unless the target is the wildcard
channel itself, publish the same data to the wildcard channel.  Returns
the hub as left after the call together with either the thrown error or
the concatenated invocation log, each entry tagged with the channel that
delivered it. -/
def EventHub.publish {V : Type} (hub : EventHub V) (n : String) (d : Option V) (now : Nat) :
    EventHub V × Except String (List (String × Nat × Option V)) :=
  match hub.getOrCreateChannel n with
  | Except.error e => (hub, Except.error e)
  | Except.ok (hub1, ch) =>
    let hub2 : EventHub V := ⟨setChan hub1.channels n (ch.publish d now).1⟩
    let log1 := (ch.publish d now).2.map (fun p => (n, p.1, p.2))
    if n = WildCardChannel then (hub2, Except.ok log1)
    else
      match hub2.getOrCreateChannel WildCardChannel with
      | Except.error e => (hub2, Except.error e)
      | Except.ok (hub3, chw) =>
        (⟨setChan hub3.channels WildCardChannel (chw.publish d now).1⟩,
         Except.ok (log1 ++ (chw.publish d now).2.map (fun p => (WildCardChannel, p.1, p.2))))

/-- EventHub.lastEvent of event-hub.ts: resolve or create the channel
(rejecting an invalid name), then read its lastEvent getter. -/
def EventHub.lastEvent {V : Type} (hub : EventHub V) (n : String) :
    EventHub V × Except String (Option V) :=
  match hub.getOrCreateChannel n with
  | Except.error e => (hub, Except.error e)
  | Except.ok (hub1, ch) => (hub1, Except.ok ch.lastEvent)

/-- The subscribers currently registered for channel n of the hub, in
insertion order; an absent channel has none. -/
def EventHub.subsOf {V : Type} (hub : EventHub V) (n : String) :
    List (Nat × RawCallback V) :=
  match lookupChan hub.channels n with
  | some ch => ch.callbacks
  | none => []

/-- The deliveries one channel publish performs: every subscriber of n in
order, each receiving d. -/
def deliveries {V : Type} (hub : EventHub V) (n : String) (d : Option V) :
    List (String × Nat × Option V) :=
  (hub.subsOf n).map (fun p => (n, p.1, d))

/-- Lookup of another key is unaffected by setChan. -/
theorem lookupChan_setChan_ne {V : Type} (cs : List (String × Channel V))
    (n m : String) (ch : Channel V) (h : m ≠ n) :
    lookupChan (setChan cs n ch) m = lookupChan cs m := by
  induction cs with
  | nil => rfl
  | cons hd tl ih =>
    cases hd with
    | mk k c0 =>
      show lookupChan ((if k = n then (k, ch) else (k, c0)) :: setChan tl n ch) m =
        lookupChan ((k, c0) :: tl) m
      by_cases hk : k = n
      · have hkm : ¬(k = m) := fun hx => h (hx.symm.trans hk)
        rw [if_pos hk]
        show (if k = m then some ch else lookupChan (setChan tl n ch) m) =
          (if k = m then some c0 else lookupChan tl m)
        rw [if_neg hkm, if_neg hkm]
        exact ih
      · rw [if_neg hk]
        show (if k = m then some c0 else lookupChan (setChan tl n ch) m) =
          (if k = m then some c0 else lookupChan tl m)
        by_cases hkm : k = m
        · rw [if_pos hkm, if_pos hkm]
        · rw [if_neg hkm, if_neg hkm]
          exact ih

/-- Lookup of another key is unaffected by appending a fresh channel. -/
theorem lookupChan_append_ne {V : Type} (cs : List (String × Channel V))
    (n m : String) (ch : Channel V) (h : m ≠ n) :
    lookupChan (cs ++ [(n, ch)]) m = lookupChan cs m := by
  induction cs with
  | nil =>
    have hnm : ¬(n = m) := fun hx => h hx.symm
    simp [lookupChan, hnm]
  | cons hd tl ih =>
    cases hd with
    | mk k c0 =>
      by_cases hkm : k = m
      · simp [lookupChan, hkm]
      · simp only [List.cons_append, lookupChan, if_neg hkm]
        exact ih

/-- The tagged log of one channel publish: every subscriber of the
channel in order, tagged with channel name n and the published value. -/
theorem publish_log_tagged {V : Type} (ch : Channel V) (n : String) (d : Option V)
    (now : Nat) :
    (ch.publish d now).2.map (fun p => (n, p.1, p.2)) =
      ch.callbacks.map (fun p => (n, p.1, d)) := by
  simp [Channel.publish, runCallbacks_log, List.map_map, Function.comp_def]

/-- The wildcard name is a valid channel name. -/
theorem wildcard_nonempty : WildCardChannel ≠ "" := by
  simp [WildCardChannel]

/-- C4: publishing data on a channel c other than the wildcard delivers
it to every subscriber of c in subscription order and afterwards to every
wildcard subscriber in subscription order, every wildcard delivery coming
after all target-channel deliveries of that publish call; publishing on
the wildcard channel itself delivers only to the wildcard subscribers,
once. -/
theorem hub_publish_wildcard_order {V : Type} (hub : EventHub V) (c : String)
    (d : Option V) (now : Nat) (hne : c ≠ "") (hnw : c ≠ WildCardChannel) :
    (hub.publish c d now).2 =
      Except.ok (deliveries hub c d ++ deliveries hub WildCardChannel d) ∧
    (hub.publish WildCardChannel d now).2 =
      Except.ok (deliveries hub WildCardChannel d) := by
  have hcw : WildCardChannel ≠ c := fun hx => hnw hx.symm
  constructor
  · cases hl : lookupChan hub.channels c with
    | some ch =>
      have hlw : lookupChan (setChan hub.channels c (ch.publish d now).1)
          WildCardChannel = lookupChan hub.channels WildCardChannel :=
        lookupChan_setChan_ne _ _ _ _ hcw
      cases hlw2 : lookupChan hub.channels WildCardChannel with
      | some chw =>
        simp only [EventHub.publish, EventHub.getOrCreateChannel, if_neg hne,
          EventHub.getOrCreate, hl, if_neg hnw, if_neg wildcard_nonempty, hlw, hlw2]
        simp [deliveries, EventHub.subsOf, hl, hlw2, Channel.publish, runCallbacks_log,
          List.map_map, Function.comp_def]
      | none =>
        simp only [EventHub.publish, EventHub.getOrCreateChannel, if_neg hne,
          EventHub.getOrCreate, hl, if_neg hnw, if_neg wildcard_nonempty, hlw, hlw2]
        simp [deliveries, EventHub.subsOf, hl, hlw2, Channel.new, Channel.publish,
          runCallbacks_log, List.map_map, Function.comp_def]
    | none =>
      have happ : lookupChan (hub.channels ++ [(c, Channel.new V c)]) WildCardChannel =
          lookupChan hub.channels WildCardChannel :=
        lookupChan_append_ne _ _ _ _ hcw
      have hset : lookupChan
          (setChan (hub.channels ++ [(c, Channel.new V c)]) c
            ((Channel.new V c).publish d now).1) WildCardChannel =
          lookupChan (hub.channels ++ [(c, Channel.new V c)]) WildCardChannel :=
        lookupChan_setChan_ne _ _ _ _ hcw
      cases hlw2 : lookupChan hub.channels WildCardChannel with
      | some chw =>
        simp only [EventHub.publish, EventHub.getOrCreateChannel, if_neg hne,
          EventHub.getOrCreate, hl, if_neg hnw, if_neg wildcard_nonempty,
          hset, happ, hlw2]
        simp [deliveries, EventHub.subsOf, hl, hlw2, Channel.new, Channel.publish,
          runCallbacks_log, List.map_map, Function.comp_def]
      | none =>
        simp only [EventHub.publish, EventHub.getOrCreateChannel, if_neg hne,
          EventHub.getOrCreate, hl, if_neg hnw, if_neg wildcard_nonempty,
          hset, happ, hlw2]
        simp [deliveries, EventHub.subsOf, hl, hlw2, Channel.new, Channel.publish,
          runCallbacks_log, List.map_map, Function.comp_def]
  · cases hl : lookupChan hub.channels WildCardChannel with
    | some ch =>
      simp only [EventHub.publish, EventHub.getOrCreateChannel,
        if_neg wildcard_nonempty, EventHub.getOrCreate, hl, if_pos rfl]
      simp [deliveries, EventHub.subsOf, hl, Channel.publish, runCallbacks_log,
        List.map_map, Function.comp_def]
    | none =>
      simp only [EventHub.publish, EventHub.getOrCreateChannel,
        if_neg wildcard_nonempty, EventHub.getOrCreate, hl, if_pos rfl]
      simp [deliveries, EventHub.subsOf, hl, Channel.new, Channel.publish,
        runCallbacks_log, List.map_map, Function.comp_def]

/-- A concrete hub: the wildcard channel and a temp channel, each with
one subscriber. -/
def demoHub : EventHub Nat :=
  ⟨[(WildCardChannel,
      { name := WildCardChannel, lastId := 1, callbacks := [(1, neverThrows)] }),
    ("temp", { name := "temp", lastId := 1, callbacks := [(1, neverThrows)] })]⟩

/-- Witness for C4 on the concrete hub: publishing on temp delivers to
the temp subscriber and then to the wildcard subscriber; publishing on
the wildcard channel delivers only to the wildcard subscriber. -/
theorem hub_publish_wildcard_order_witness :
    (("temp" : String) ≠ "" ∧ ("temp" : String) ≠ WildCardChannel) ∧
    (demoHub.publish "temp" (some 3) 0).2 =
      Except.ok [("temp", 1, some 3), (WildCardChannel, 1, some 3)] ∧
    (demoHub.publish WildCardChannel (some 3) 0).2 =
      Except.ok [(WildCardChannel, 1, some 3)] := by
  have h := hub_publish_wildcard_order demoHub "temp" (some 3) 0 (by decide) (by decide)
  refine ⟨⟨by decide, by decide⟩, ?_, ?_⟩
  · rw [h.1]
    rfl
  · rw [h.2]
    rfl

/-- C9: EventHub.publish and EventHub.lastEvent validate the channel name
themselves: called with the empty string each throws the TypeError
synchronously, the hub is returned unchanged, so no channel is created
and channelCount is unchanged. -/
theorem hub_rejects_empty_name {V : Type} (hub : EventHub V) (d : Option V) (now : Nat) :
    hub.publish "" d now = (hub, Except.error "Channel name must be a non-empty string") ∧
    hub.lastEvent "" = (hub, Except.error "Channel name must be a non-empty string") ∧
    (hub.publish "" d now).1.channelCount = hub.channelCount ∧
    (hub.lastEvent "").1.channelCount = hub.channelCount :=
  ⟨rfl, rfl, rfl, rfl⟩

end EventHubSpec
